import Mathlib

/-!
Verification development for the AI-MacroLens backend (Supabase Edge Function
`analyze-meal`).  The TypeScript source is shallowly embedded: pure parsing /
validation / decision logic becomes Lean functions, the network and database
calls become explicit environment data and state passing, and JavaScript
`number` values are modelled as exact rationals (`ℚ`).  All definitions are
executable so properties can be checked on concrete inputs.
-/

attribute [local semireducible] Rat.mul Rat.add Rat.inv Rat.sub Rat.ofScientific

namespace AIMacroLens

/-! ## JavaScript string primitives

The source manipulates strings via `trim`, `replace` with anchored regexes,
`startsWith`, `endsWith`, `substring` and `match(/\x7b[\s\S]*\x7d/)`.  They are
modelled here over `List Char` (ASCII-faithful; the exotic Unicode members of
the JS `\s` class beyond NBSP and BOM are not modelled, no input in this
development uses them). -/

/-- Whitespace recognised by JS `String.prototype.trim` and the regex class
`\s`: space, tab, LF, CR, vertical tab, form feed, NBSP, BOM. -/
def isJsWs (c : Char) : Bool :=
  c = ' ' || c = '\t' || c = '\n' || c = '\r' ||
  c = Char.ofNat 11 || c = Char.ofNat 12 || c = Char.ofNat 160 || c = Char.ofNat 65279

/-- JS `text.trim()`. -/
def jsTrim (s : String) : String :=
  ⟨((s.data.dropWhile isJsWs).reverse.dropWhile isJsWs).reverse⟩

/-- JS `s.substring(0, n)` (ASCII inputs). -/
def jsSubstring (s : String) (n : ℕ) : String := ⟨s.data.take n⟩

/-- JS `s.startsWith(p)`. -/
def jsStartsWith (s p : String) : Bool := s.data.take p.data.length == p.data

/-- JS `s.endsWith(p)`. -/
def jsEndsWith (s p : String) : Bool := s.data.reverse.take p.data.length == p.data.reverse

/-- ASCII lower-casing of one character (for a case-insensitive regex match). -/
def lcChar (c : Char) : Char :=
  if 'A' ≤ c && c ≤ 'Z' then Char.ofNat (c.toNat + 32) else c

/-- JS `s.replace(/^marker\s*/i, '')` for a literal lower-case `marker`:
if the lower-cased text starts with `marker`, drop it and any following
whitespace, otherwise return the text unchanged. -/
def stripAnchoredCI (s : String) (marker : String) : String :=
  if (s.data.take marker.data.length).map lcChar == marker.data then
    ⟨(s.data.drop marker.data.length).dropWhile isJsWs⟩
  else s

/-- JS `s.replace(/\s*(three backticks)$/, '')`: if the text ends with a
code-fence marker, drop it and any whitespace immediately before it. -/
def stripFenceSuffix (s : String) : String :=
  if s.data.reverse.take 3 == "```".data then
    ⟨((s.data.reverse.drop 3).dropWhile isJsWs).reverse⟩
  else s

/-- JS `s.match(/\x7b[\s\S]*\x7d/)`: greedy span from the first `{` to the
last `}` after it; when there is no match the text is returned unchanged
(mirroring the callers, which keep `cleaned` as-is in that case). -/
def extractJsonSpan (s : String) : String :=
  match s.data.dropWhile (fun c => c ≠ '{') with
  | [] => s
  | l =>
    let r := l.reverse.dropWhile (fun c => c ≠ '}')
    if r = [] then s else ⟨r.reverse⟩

end AIMacroLens

namespace AIMacroLens

/-! ## JSON values and `JSON.parse`

Modelled from the platform: the normalizers call the JavaScript builtin
`JSON.parse`, which is not repository code; it is embedded here as a
recursive-descent parser following the ECMA-404 grammar (the one JSON.parse
implements): strict numbers (no leading zeros, no trailing commas), strings
with escapes, objects and arrays.  Numbers are kept exact as
`± mantissa / 10 ^ scale`. -/

/-- A JSON numeric literal, kept exact: value `± mant / 10 ^ scale`
(the exponent part of the literal is folded into `mant` / `scale`). -/
structure JNum where
  neg : Bool
  mant : ℕ
  scale : ℕ
  deriving DecidableEq, Repr

/-- JSON value tree. -/
inductive Json where
  | null
  | bool (b : Bool)
  | num (n : JNum)
  | str (s : String)
  | arr (elems : List Json)
  | obj (fields : List (String × Json))

/-- JSON insignificant whitespace (ECMA-404): space, tab, LF, CR. -/
def isJsonWs (c : Char) : Bool := c = ' ' || c = '\t' || c = '\n' || c = '\r'

/-- Hex digit value, if any. -/
def hexVal (c : Char) : Option ℕ :=
  if '0' ≤ c && c ≤ '9' then some (c.toNat - 48)
  else if 'a' ≤ c && c ≤ 'f' then some (c.toNat - 87)
  else if 'A' ≤ c && c ≤ 'F' then some (c.toNat - 55)
  else none

/-- Parse the body of a JSON string (after the opening quote). -/
def parseJString : ℕ → List Char → List Char → Option (String × List Char)
  | 0, _, _ => none
  | _ + 1, acc, '"' :: rest => some (⟨acc.reverse⟩, rest)
  | fuel + 1, acc, '\\' :: e :: rest =>
    match e with
    | '"' => parseJString fuel ('"' :: acc) rest
    | '\\' => parseJString fuel ('\\' :: acc) rest
    | '/' => parseJString fuel ('/' :: acc) rest
    | 'b' => parseJString fuel (Char.ofNat 8 :: acc) rest
    | 'f' => parseJString fuel (Char.ofNat 12 :: acc) rest
    | 'n' => parseJString fuel ('\n' :: acc) rest
    | 'r' => parseJString fuel ('\r' :: acc) rest
    | 't' => parseJString fuel ('\t' :: acc) rest
    | 'u' =>
      match rest with
      | h1 :: h2 :: h3 :: h4 :: rest' =>
        match hexVal h1, hexVal h2, hexVal h3, hexVal h4 with
        | some a, some b, some c, some d =>
          parseJString fuel (Char.ofNat (((a * 16 + b) * 16 + c) * 16 + d) :: acc) rest'
        | _, _, _, _ => none
      | _ => none
    | _ => none
  | fuel + 1, acc, c :: rest =>
    if c.toNat < 32 then none else parseJString fuel (c :: acc) rest
  | _ + 1, _, [] => none

/-- Greedily read decimal digits, returning the accumulated value, their
count, and the remaining input. -/
def readDigits : ℕ → ℕ → ℕ → List Char → (ℕ × ℕ × List Char)
  | 0, acc, k, cs => (acc, k, cs)
  | fuel + 1, acc, k, c :: cs =>
    if '0' ≤ c && c ≤ '9' then readDigits fuel (acc * 10 + (c.toNat - 48)) (k + 1) cs
    else (acc, k, c :: cs)
  | _ + 1, acc, k, [] => (acc, k, [])

/-- Parse a JSON number starting at the sign or first digit: strict grammar
`-? (0 | [1-9][0-9]*) (. [0-9]+)? ([eE] [+-]? [0-9]+)?`. -/
def parseJNum (cs : List Char) : Option (JNum × List Char) :=
  let (neg, cs₁) := match cs with
    | '-' :: rest => (true, rest)
    | _ => (false, cs)
  match cs₁ with
  | c :: _ =>
    if !('0' ≤ c && c ≤ '9') then none
    else
      let (intPart, intLen, cs₂) := readDigits (cs₁.length + 1) 0 0 cs₁
      -- leading-zero rule: a multi-digit integer part may not start with '0'
      if c = '0' && intLen ≠ 1 then none
      else
        let (mant, scale, cs₃) := match cs₂ with
          | '.' :: ds =>
            let (frac, fracLen, rest) := readDigits (ds.length + 1) intPart 0 ds
            if fracLen = 0 then (intPart, 0, cs₂) else (frac, fracLen, rest)
          | _ => (intPart, 0, cs₂)
        -- a '.' not followed by a digit is a syntax error
        match cs₃ with
        | '.' :: _ => none
        | _ =>
          match cs₃ with
          | e :: es =>
            if e = 'e' || e = 'E' then
              let (eneg, es₁) := match es with
                | '+' :: r => (false, r)
                | '-' :: r => (true, r)
                | _ => (false, es)
              let (ev, elen, cs₄) := readDigits (es₁.length + 1) 0 0 es₁
              if elen = 0 then none
              else if eneg then some (⟨neg, mant, scale + ev⟩, cs₄)
              else some (⟨neg, mant * 10 ^ ev, scale⟩, cs₄)
            else some (⟨neg, mant, scale⟩, cs₃)
          | [] => some (⟨neg, mant, scale⟩, [])
  | [] => none

mutual

/-- Parse one JSON value (after leading whitespace has been skipped). -/
def parseJValue : ℕ → List Char → Option (Json × List Char)
  | 0, _ => none
  | fuel + 1, cs =>
    match cs with
    | 'n' :: 'u' :: 'l' :: 'l' :: rest => some (Json.null, rest)
    | 't' :: 'r' :: 'u' :: 'e' :: rest => some (Json.bool true, rest)
    | 'f' :: 'a' :: 'l' :: 's' :: 'e' :: rest => some (Json.bool false, rest)
    | '"' :: rest =>
      match parseJString (rest.length + 1) [] rest with
      | some (s, rest') => some (Json.str s, rest')
      | none => none
    | '{' :: rest =>
      match (rest.dropWhile isJsonWs) with
      | '}' :: rest' => some (Json.obj [], rest')
      | other => parseJMembers fuel [] other
    | '[' :: rest =>
      match (rest.dropWhile isJsonWs) with
      | ']' :: rest' => some (Json.arr [], rest')
      | other => parseJElems fuel [] other
    | _ =>
      match parseJNum cs with
      | some (n, rest) => some (Json.num n, rest)
      | none => none

/-- Parse the members of a JSON object (at the first character of a key). -/
def parseJMembers : ℕ → List (String × Json) → List Char → Option (Json × List Char)
  | 0, _, _ => none
  | fuel + 1, acc, cs =>
    match cs with
    | '"' :: rest =>
      match parseJString (rest.length + 1) [] rest with
      | some (key, rest₁) =>
        match rest₁.dropWhile isJsonWs with
        | ':' :: rest₂ =>
          match parseJValue fuel (rest₂.dropWhile isJsonWs) with
          | some (v, rest₃) =>
            match rest₃.dropWhile isJsonWs with
            | ',' :: rest₄ => parseJMembers fuel ((key, v) :: acc) (rest₄.dropWhile isJsonWs)
            | '}' :: rest₄ => some (Json.obj ((key, v) :: acc).reverse, rest₄)
            | _ => none
          | none => none
        | _ => none
      | none => none
    | _ => none

/-- Parse the elements of a JSON array (at the first character of a value). -/
def parseJElems : ℕ → List Json → List Char → Option (Json × List Char)
  | 0, _, _ => none
  | fuel + 1, acc, cs =>
    match parseJValue fuel cs with
    | some (v, rest) =>
      match rest.dropWhile isJsonWs with
      | ',' :: rest' => parseJElems fuel (v :: acc) (rest'.dropWhile isJsonWs)
      | ']' :: rest' => some (Json.arr (v :: acc).reverse, rest')
      | _ => none
    | none => none

end

/-- `JSON.parse`: parse a complete JSON document; `none` models the thrown
`SyntaxError` (also raised when trailing non-whitespace remains). -/
def Json.parse (s : String) : Option Json :=
  let cs := s.data.dropWhile isJsonWs
  match parseJValue (cs.length + 1) cs with
  | some (v, rest) => if rest.dropWhile isJsonWs = [] then some v else none
  | none => none

/-- Numeric value of a JSON number literal, as an exact rational. -/
def numVal (n : JNum) : ℚ :=
  (if n.neg then -(n.mant : ℚ) else (n.mant : ℚ)) / (10 : ℚ) ^ n.scale

end AIMacroLens

namespace AIMacroLens

/-! ## Data model (`types.ts`) -/

/-- Confidence enum emitted by the providers (`'low' | 'medium' | 'high'`). -/
inductive Confidence where
  | low
  | medium
  | high
  deriving DecidableEq, Repr

/-- `MacroEstimate` (types.ts).  JS `number` fields are exact rationals;
`meal_description` keeps the raw JSON value the JS code stores (which is not
necessarily a string, since the code does not check its type). -/
structure MacroEstimate where
  calories : ℚ
  protein : ℚ
  carbs : ℚ
  fat : ℚ
  confidence : Confidence
  meal_description : Option Json := none

/-- `AIModel` (types.ts). -/
inductive AIModel where
  | gemini
  | openai
  deriving DecidableEq, Repr

/-- Validated `AnalyzeMealRequest` (types.ts), as produced by
`validateRequest`. -/
structure AnalyzeMealRequest where
  user_id : String
  image_url : Option String
  description : Option String

/-- One `ai_usage` row (types.ts `AIUsageRecord`).  `usage_date` is a calendar
date; ISO date strings compare like their day numbers, so dates are modelled
as naturals preserving that order. -/
structure UsageRecord where
  user_id : String
  usage_date : ℕ
  calls : ℕ
  estimated_cost : ℚ

/-- The `ai_usage` table. -/
abbrev Ledger := List UsageRecord

/-- `CONFIG` (config.ts). -/
structure Config where
  RATE_LIMIT_DAILY : ℕ
  COST_LIMIT_MONTHLY_INR : ℚ
  GEMINI_COST_PER_IMAGE_INR : ℚ
  OPENAI_COST_PER_IMAGE_INR : ℚ

/-- The deployed configuration constants (config.ts). -/
def CONFIG : Config where
  RATE_LIMIT_DAILY := 7
  COST_LIMIT_MONTHLY_INR := 100
  GEMINI_COST_PER_IMAGE_INR := 3 / 100
  OPENAI_COST_PER_IMAGE_INR := 9 / 100

/-! ## Response normalization (gemini-helper.ts, gemini-text-helper.ts,
openai-helper.ts) -/

/-- JS `Math.round`: round half toward positive infinity. -/
def jsRound (q : ℚ) : ℤ := ⌊q + 1 / 2⌋

/-- Property access `parsed.key` on an untyped JSON value: a field of an
object (last duplicate wins, as in `JSON.parse`), `undefined` (here `none`)
otherwise. -/
def getField : Json → String → Option Json
  | Json.obj fields, key =>
    (fields.reverse.find? (fun kv => kv.fst == key)).map (fun kv => kv.snd)
  | _, _ => none

/-- `typeof v === 'number'` on a possibly-undefined value, extracting the
number. -/
def asNum : Option Json → Option ℚ
  | some (Json.num n) => some (numVal n)
  | _ => none

/-- `['low', 'medium', 'high'].includes(v)` on a possibly-undefined value
(strict equality: only those exact strings pass). -/
def asConf : Option Json → Option Confidence
  | some (Json.str s) =>
    if s = "low" then some Confidence.low
    else if s = "medium" then some Confidence.medium
    else if s = "high" then some Confidence.high
    else none
  | _ => none

/-- JS truthiness of a JSON value. -/
def jsTruthy : Json → Bool
  | Json.null => false
  | Json.bool b => b
  | Json.num n => n.mant ≠ 0
  | Json.str s => s ≠ ""
  | Json.arr _ => true
  | Json.obj _ => true

/-- JS `v || undefined` on a possibly-undefined value. -/
def jsOrUndefined : Option Json → Option Json
  | some v => if jsTruthy v then some v else none
  | none => none

/-- The cleaning pipeline of `parseAIResponse` (gemini-helper.ts lines
168-185): trim, strip a leading ```json / ```jsons / ``` fence marker, strip a
trailing fence, trim again, then fall back to the greedy brace span when the
text does not start with `{`. -/
def cleanGemini (text : String) : String :=
  let c₀ := jsTrim text
  let c₁ := stripAnchoredCI c₀ "```json"
  let c₂ := stripAnchoredCI c₁ "```jsons"
  let c₃ := stripAnchoredCI c₂ "```"
  let c₄ := stripFenceSuffix c₃
  let c₅ := jsTrim c₄
  if jsStartsWith c₅ "\x7b" then c₅ else extractJsonSpan c₅

/-- The cleaning pipeline of `parseTextAnalysisResponse`
(gemini-text-helper.ts lines 175-188): same as the image-mode pipeline but
without the ```jsons typo variant. -/
def cleanTextMode (text : String) : String :=
  let c₀ := jsTrim text
  let c₁ := stripAnchoredCI c₀ "```json"
  let c₂ := stripAnchoredCI c₁ "```"
  let c₃ := stripFenceSuffix c₂
  let c₄ := jsTrim c₃
  if jsStartsWith c₄ "\x7b" then c₄ else extractJsonSpan c₄

namespace GeminiHelper

/-- `parseAIResponse` (gemini-helper.ts lines 165-218).  On a JSON syntax
failure the code throws ``Failed to parse AI response as JSON: ${message}``
where `message` is the engine's `SyntaxError` text (not modelled); note it
attaches neither a prefix of the offending text nor any truncation flag. -/
def parseAIResponse (text : String) : Except String MacroEstimate :=
  let cleaned := cleanGemini text
  match Json.parse cleaned with
  | none => Except.error "Failed to parse AI response as JSON"
  | some parsed =>
    match asNum (getField parsed "calories"), asNum (getField parsed "protein"),
          asNum (getField parsed "carbs"), asNum (getField parsed "fat"),
          asConf (getField parsed "confidence") with
    | some cal, some protein, some carbs, some fat, some conf =>
      Except.ok
        { calories := (jsRound cal : ℚ)
          protein := (jsRound (protein * 10) : ℚ) / 10
          carbs := (jsRound (carbs * 10) : ℚ) / 10
          fat := (jsRound (fat * 10) : ℚ) / 10
          confidence := conf
          meal_description := jsOrUndefined (getField parsed "meal_description") }
    | _, _, _, _, _ => Except.error "Invalid response structure from AI"

end GeminiHelper

namespace GeminiTextHelper

/-- `parseTextAnalysisResponse` (gemini-text-helper.ts lines 174-224).  On a
JSON syntax failure, the error is flagged as truncated exactly when the
cleaned candidate ends in `,` or does not end in `\x7d`, carrying the first 100
characters; otherwise a generic parse error carries the first 200. -/
def parseTextAnalysisResponse (text : String) : Except String MacroEstimate :=
  let cleaned := cleanTextMode text
  match Json.parse cleaned with
  | none =>
    if jsEndsWith cleaned "," || !jsEndsWith cleaned "\x7d" then
      Except.error ("AI response appears truncated. Received: " ++ jsSubstring cleaned 100 ++ "...")
    else
      Except.error ("Failed to parse AI response as JSON. Response: " ++ jsSubstring cleaned 200)
  | some parsed =>
    match asNum (getField parsed "calories"), asNum (getField parsed "protein"),
          asNum (getField parsed "carbs"), asNum (getField parsed "fat"),
          asConf (getField parsed "confidence") with
    | some cal, some protein, some carbs, some fat, some conf =>
      Except.ok
        { calories := (jsRound cal : ℚ)
          protein := (jsRound (protein * 10) : ℚ) / 10
          carbs := (jsRound (carbs * 10) : ℚ) / 10
          fat := (jsRound (fat * 10) : ℚ) / 10
          confidence := conf
          meal_description := jsOrUndefined (getField parsed "meal_description") }
    | _, _, _, _, _ => Except.error "Invalid response structure from AI"

end GeminiTextHelper

namespace OpenAIHelper

/-- `parseAIResponse` (openai-helper.ts lines 119-140).  No cleaning beyond
`trim`, no catch around `JSON.parse` (a `SyntaxError` propagates to the caller
as a provider failure), and no `meal_description` in the result. -/
def parseAIResponse (text : String) : Except String MacroEstimate :=
  match Json.parse (jsTrim text) with
  | none => Except.error "SyntaxError"
  | some parsed =>
    match asNum (getField parsed "calories"), asNum (getField parsed "protein"),
          asNum (getField parsed "carbs"), asNum (getField parsed "fat"),
          asConf (getField parsed "confidence") with
    | some cal, some protein, some carbs, some fat, some conf =>
      Except.ok
        { calories := (jsRound cal : ℚ)
          protein := (jsRound (protein * 10) : ℚ) / 10
          carbs := (jsRound (carbs * 10) : ℚ) / 10
          fat := (jsRound (fat * 10) : ℚ) / 10
          confidence := conf
          meal_description := none }
    | _, _, _, _, _ => Except.error "Invalid response structure from AI"

end OpenAIHelper

end AIMacroLens

namespace AIMacroLens

/-! ## Image URL validation (validators.ts) -/

/-- The observable part of the `HEAD` fetch response used by
`validateImageUrl`: the HTTP status and the `content-type` header (`none`
when the header is absent — the Fetch API returns `null` then). -/
structure ProbeResponse where
  status : ℕ
  contentType : Option String

/-- Fetch `Response.ok`: status in the 2xx range. -/
def ProbeResponse.ok (r : ProbeResponse) : Bool :=
  200 ≤ r.status && r.status < 300

namespace Validators

/-- `validateImageUrl` (validators.ts lines 81-99), as a function of the
outcome of the `HEAD` fetch (`Except.error` models a thrown network/timeout
error, which the catch re-wraps).  The content-type guard fires only when the
header is present, non-empty (JS truthiness) and does not start with
`image/`. -/
def validateImageUrl (probe : Except String ProbeResponse) : Except String Unit :=
  match probe with
  | Except.error e => Except.error ("Failed to access image URL: " ++ e)
  | Except.ok response =>
    if !response.ok then
      Except.error ("Image URL returned status " ++ toString response.status)
    else
      match response.contentType with
      | some contentType =>
        if contentType ≠ "" && !(jsStartsWith contentType "image/") then
          Except.error "URL does not point to an image"
        else Except.ok ()
      | none => Except.ok ()

end Validators

/-! ## Usage ledger (database.ts) -/

namespace Database

/-- `getDailyUsageCount` (database.ts lines 237-258): today's `calls` for the
user, `0` when no row exists (`PGRST116`). -/
def getDailyUsageCount (ledger : Ledger) (userId : String) (today : ℕ) : ℕ :=
  match ledger.find? (fun r => r.user_id == userId && r.usage_date == today) with
  | some r => r.calls
  | none => 0

/-- `getMonthlyEstimatedCost` (database.ts lines 263-280): sum of
`estimated_cost` over every row (all users) whose `usage_date` is on or after
the first day of the current month (`.gte` filter, then `reduce`). -/
def getMonthlyEstimatedCost (ledger : Ledger) (firstDayOfMonth : ℕ) : ℚ :=
  ((ledger.filter (fun r => firstDayOfMonth ≤ r.usage_date)).map
    (fun r => r.estimated_cost)).foldl (· + ·) 0

/-- `recordAIUsage` (database.ts lines 285-329): read today's row for the
user; update it with `calls + 1` and `estimated_cost + cost` when present,
insert `calls = 1, estimated_cost = cost` otherwise, where `cost` is the
configured per-call cost of the model that produced the accepted result. -/
def recordAIUsage (cfg : Config) (userId : String) (model : AIModel) (today : ℕ)
    (ledger : Ledger) : Ledger :=
  let cost := match model with
    | AIModel.gemini => cfg.GEMINI_COST_PER_IMAGE_INR
    | AIModel.openai => cfg.OPENAI_COST_PER_IMAGE_INR
  match ledger.find? (fun r => r.user_id == userId && r.usage_date == today) with
  | some existing =>
    ledger.map (fun r =>
      if r.user_id == userId && r.usage_date == today then
        { r with calls := existing.calls + 1,
                 estimated_cost := existing.estimated_cost + cost }
      else r)
  | none =>
    ledger ++ [{ user_id := userId, usage_date := today, calls := 1, estimated_cost := cost }]

end Database

/-! ## The orchestrator (index.ts `serve` handler) -/

/-- `AnalyzeMealResponse` (types.ts), the success payload assembled at
index.ts lines 191-200. -/
structure AnalyzeMealResponse where
  calories : ℚ
  protein : ℚ
  carbs : ℚ
  fat : ℚ
  confidence : Confidence
  meal_description : Option Json
  source : String
  ai_model_used : AIModel

/-- A handler outcome: either the success JSON payload or
`jsonError(error, status, details)`. -/
inductive HResponse where
  | success (resp : AnalyzeMealResponse)
  | error (status : ℕ) (error : String) (details : Option String)

/-- Outcomes of the external calls the handler awaits, fixed per request:
the authenticated user, the result of `validateRequest(body)`, the server
dates, the image `HEAD` probe, whether `OPENAI_API_KEY` is set, and each
provider call's outcome (`Except.error` models a thrown provider error). -/
structure Env where
  userId : String
  validation : Except String AnalyzeMealRequest
  today : ℕ
  firstOfMonth : ℕ
  imageProbe : Except String ProbeResponse
  hasOpenAI : Bool
  geminiResult : Except String MacroEstimate
  openaiResult : Except String MacroEstimate
  textResult : Except String MacroEstimate

/-- The handler's observable effects: the response, the ledger after the
request, and how many times each external call ran (`recordCalls` counts
`recordAIUsage` invocations). -/
structure HandlerResult where
  response : HResponse
  ledger : Ledger
  geminiCalls : ℕ
  openaiCalls : ℕ
  textCalls : ℕ
  recordCalls : ℕ

/-- JS truthiness of an optional string field (`undefined` and `''` are
falsy). -/
def optTruthy : Option String → Bool
  | some s => s ≠ ""
  | none => false

namespace Index

/-- An error path: `jsonError` with the ledger untouched and no
`recordAIUsage` call. -/
def errResult (ledger : Ledger) (g o t : ℕ) (status : ℕ) (error : String)
    (details : Option String) : HandlerResult :=
  { response := HResponse.error status error details
    ledger := ledger
    geminiCalls := g, openaiCalls := o, textCalls := t, recordCalls := 0 }

/-- The shared tail of both analysis modes (index.ts lines 178-202): the
not-food rejection, then `recordAIUsage` and the success response. -/
def finalize (cfg : Config) (env : Env) (ledger : Ledger) (g o t : ℕ)
    (macros : MacroEstimate) (aiModel : AIModel) : HandlerResult :=
  if macros.calories = 0 ∨ (macros.protein = 0 ∧ macros.carbs = 0 ∧ macros.fat = 0) then
    errResult ledger g o t 400 "unable_to_estimate" (some "Image does not appear to contain food")
  else
    { response := HResponse.success
        { calories := macros.calories
          protein := macros.protein
          carbs := macros.carbs
          fat := macros.fat
          confidence := macros.confidence
          meal_description := macros.meal_description
          source := "ai"
          ai_model_used := aiModel }
      ledger := Database.recordAIUsage cfg env.userId aiModel env.today ledger
      geminiCalls := g, openaiCalls := o, textCalls := t, recordCalls := 1 }

/-- IMAGE analysis mode (index.ts lines 114-161): Gemini first; on success
with low confidence fall back to OpenAI when configured, keeping the OpenAI
result only when its confidence is not low; on Gemini failure fall back to
OpenAI when configured, else fail with `unable_to_estimate`. -/
def imageAnalysis (cfg : Config) (env : Env) (ledger : Ledger) : HandlerResult :=
  match env.geminiResult with
  | Except.ok macros =>
    if macros.confidence = Confidence.low ∧ env.hasOpenAI then
      match env.openaiResult with
      | Except.ok openAIMacros =>
        if openAIMacros.confidence ≠ Confidence.low then
          finalize cfg env ledger 1 1 0 openAIMacros AIModel.openai
        else
          finalize cfg env ledger 1 1 0 macros AIModel.gemini
      | Except.error _ =>
        finalize cfg env ledger 1 1 0 macros AIModel.gemini
    else
      finalize cfg env ledger 1 0 0 macros AIModel.gemini
  | Except.error _ =>
    if env.hasOpenAI then
      match env.openaiResult with
      | Except.ok macros => finalize cfg env ledger 1 1 0 macros AIModel.openai
      | Except.error _ =>
        errResult ledger 1 1 0 500 "unable_to_estimate" (some "AI model failed to analyze the image")
    else
      errResult ledger 1 0 0 500 "unable_to_estimate"
        (some "AI analysis failed. Please check the image and try again.")

/-- TEXT-only analysis mode (index.ts lines 162-172). -/
def textAnalysis (cfg : Config) (env : Env) (ledger : Ledger) : HandlerResult :=
  match env.textResult with
  | Except.ok macros => finalize cfg env ledger 0 0 1 macros AIModel.gemini
  | Except.error _ =>
    errResult ledger 0 0 1 500 "unable_to_estimate"
      (some "Failed to analyze meal description. Please provide more details.")

/-- The `serve` handler (index.ts lines 77-216) after authentication:
validation, identity check, rate limit, cost guard, image-URL probe, mode
selection, analysis with fallback, finalization.  A thrown `ValidationError`
is caught at the bottom and returned as a 400 with the error's message.  (The
code interpolates the configured ceiling into the cost-limit message; the
message is modelled without the number.  The source guards the probe and the
image branch with two separate but identical `if (requestData.image_url)`
truthiness checks; they are merged into one here.) -/
def handle (cfg : Config) (env : Env) (ledger : Ledger) : HandlerResult :=
  match env.validation with
  | Except.error message => errResult ledger 0 0 0 400 message none
  | Except.ok requestData =>
    if requestData.user_id ≠ env.userId then
      errResult ledger 0 0 0 403 "user_id does not match authenticated user" none
    else
      let dailyUsage := Database.getDailyUsageCount ledger env.userId env.today
      if cfg.RATE_LIMIT_DAILY ≤ dailyUsage then
        errResult ledger 0 0 0 429 "Daily rate limit exceeded. Max 5 AI analyses per day." none
      else
        let monthlyCost := Database.getMonthlyEstimatedCost ledger env.firstOfMonth
        if cfg.COST_LIMIT_MONTHLY_INR ≤ monthlyCost then
          errResult ledger 0 0 0 429 "Monthly cost limit reached" none
        else
          if optTruthy requestData.image_url then
            match Validators.validateImageUrl env.imageProbe with
            | Except.error message => errResult ledger 0 0 0 400 message none
            | Except.ok _ => imageAnalysis cfg env ledger
          else if optTruthy requestData.description then
            textAnalysis cfg env ledger
          else
            errResult ledger 0 0 0 400 "invalid_request"
              (some "Either image_url or description must be provided")

end Index

end AIMacroLens

namespace AIMacroLens

/-! ## Fixtures and helper lemmas -/

/-- A well-formed image-mode request. -/
def imgRequest : AnalyzeMealRequest :=
  { user_id := "user-1", image_url := some "https://example.com/meal.jpg", description := none }

/-- A baseline environment: the authenticated user matches, image mode, the
probe succeeds, Gemini succeeds with a plausible estimate, OpenAI is not
configured. -/
def baseEnv : Env :=
  { userId := "user-1"
    validation := Except.ok imgRequest
    today := 20, firstOfMonth := 11
    imageProbe := Except.ok { status := 200, contentType := some "image/jpeg" }
    hasOpenAI := false
    geminiResult := Except.ok
      { calories := 450, protein := 37/2, carbs := 65, fat := 12, confidence := Confidence.high }
    openaiResult := Except.error "OPENAI_API_KEY not configured (OpenAI is optional)"
    textResult := Except.error "not invoked" }

/-- The per-call cost the ledger attributes to a model (the `cost` local of
`recordAIUsage`). -/
def Database.costOf (cfg : Config) (model : AIModel) : ℚ :=
  match model with
  | AIModel.gemini => cfg.GEMINI_COST_PER_IMAGE_INR
  | AIModel.openai => cfg.OPENAI_COST_PER_IMAGE_INR

/-- What `finalize` sends back for an accepted estimate: the not-food
rejection when calories = 0 or all three macros are 0, the success payload
annotated with the producing model otherwise. -/
def Index.finalizedResponse (m : MacroEstimate) (mdl : AIModel) : HResponse :=
  if m.calories = 0 ∨ (m.protein = 0 ∧ m.carbs = 0 ∧ m.fat = 0) then
    HResponse.error 400 "unable_to_estimate" (some "Image does not appear to contain food")
  else
    HResponse.success
      { calories := m.calories, protein := m.protein, carbs := m.carbs, fat := m.fat
        confidence := m.confidence, meal_description := m.meal_description
        source := "ai", ai_model_used := mdl }

/-! ## Fixtures and statement abbreviations used by the claim theorems -/

/-- An estimate with zero calories but a non-zero macro: the claimed
AND-conjunction does not hold of it, yet the handler rejects it. -/
def estZeroCalNonzeroMacro : MacroEstimate :=
  { calories := 0, protein := 5, carbs := 0, fat := 0, confidence := Confidence.high }

/-- The responses an analysis mode can produce: a success or an
`unable_to_estimate` error — never an admission-control error. -/
def isAnalysisOutcome : HResponse → Prop
  | HResponse.success _ => True
  | HResponse.error _ e _ => e = "unable_to_estimate"

/-- The deployed config with the daily limit of the claim's boundary
example. -/
def cfg5 : Config := { CONFIG with RATE_LIMIT_DAILY := 5 }

/-- The ledger after `n` identical requests (each request starts from the
ledger the previous one left behind). -/
def iterLedger (cfg : Config) (env : Env) : ℕ → Ledger
  | 0 => []
  | n + 1 => (Index.handle cfg env (iterLedger cfg env n)).ledger

/-- The deployed config with the monthly ceiling of the claim's boundary
example. -/
def cfg80 : Config := { CONFIG with COST_LIMIT_MONTHLY_INR := 80 }

/-- A ledger one inference short of the 80-unit ceiling, spent by another
user. -/
def ledgerNearCeiling : Ledger :=
  [{ user_id := "user-2", usage_date := 15, calls := 3, estimated_cost := 7999/100 }]

/-- A ledger past the 80-unit ceiling, spent by another user. -/
def ledgerOverCeiling : Ledger :=
  [{ user_id := "user-2", usage_date := 15, calls := 4, estimated_cost := 8002/100 }]

/-- The estimate the baseline environment's Gemini call returns. -/
def baseEstimate : MacroEstimate :=
  { calories := 450, protein := 37/2, carbs := 65, fat := 12, confidence := Confidence.high }

/-- An all-zero estimate with non-low confidence. -/
def estAllZeroMedium : MacroEstimate :=
  { calories := 0, protein := 0, carbs := 0, fat := 0, confidence := Confidence.medium }

/-- A usable low-confidence estimate. -/
def estLowConf : MacroEstimate :=
  { calories := 300, protein := 10, carbs := 40, fat := 8, confidence := Confidence.low }

/-- An all-zero low-confidence estimate. -/
def estLowZero : MacroEstimate :=
  { calories := 0, protein := 0, carbs := 0, fat := 0, confidence := Confidence.low }

/-- Low-confidence Gemini, OpenAI configured and succeeding with high
confidence. -/
def envLowUpgrade : Env :=
  { baseEnv with hasOpenAI := true, geminiResult := Except.ok estLowConf,
                 openaiResult := Except.ok baseEstimate }

/-- Low-confidence all-zero Gemini, OpenAI configured but failing. -/
def envLowFallbackFails : Env :=
  { baseEnv with hasOpenAI := true, geminiResult := Except.ok estLowZero,
                 openaiResult := Except.error "OpenAI API error: 500" }

/-- Gemini succeeds with non-low confidence but an all-zero estimate. -/
def envGateZero : Env := { baseEnv with geminiResult := Except.ok estAllZeroMedium }

/-- Code-fenced JSON with a trailing comma immediately before the closing
brace — the claim's own example input. -/
def fencedTrailingComma : String :=
  "```json\n\x7b\"calories\": 420, \"protein\": 12, \"carbs\": 50, \"fat\": 9, \"confidence\": \"high\",\n\x7d\n```"

/-- A genuinely truncated payload: it ends in a comma with no closing
brace. -/
def truncatedPayload : String := "\x7b\"calories\": 420, \"protein\": 12,"

/-- A raw payload with protein exactly at the 18.54 half-way-low boundary. -/
def proteinHalfDown : String :=
  "\x7b\"calories\": 100, \"protein\": 18.54, \"carbs\": 10, \"fat\": 2, \"confidence\": \"high\"\x7d"

/-- A raw payload with protein exactly at the 18.55 half-way-high boundary. -/
def proteinHalfUp : String :=
  "\x7b\"calories\": 100, \"protein\": 18.55, \"carbs\": 10, \"fat\": 2, \"confidence\": \"high\"\x7d"

/-- A raw payload with negative calories and protein that passes validation
(`typeof === 'number'` does not exclude negatives). -/
def negText : String :=
  "\x7b\"calories\": -100, \"protein\": -5, \"carbs\": 2, \"fat\": 3, \"confidence\": \"low\"\x7d"

/-- `find?` through a `map` that does not change which rows match. -/
theorem find?_map_update {α : Type} (p : α → Bool) (u : α → α) (hu : ∀ a, p (u a) = p a)
    (l : List α) : (l.map u).find? p = (l.find? p).map u := by
  have hpu : (p ∘ u) = p := funext hu
  rw [List.find?_map, hpu]

/-- The row for `(userId, today)` after `recordAIUsage`: updated when
present, freshly inserted with `calls = 1` otherwise. -/
theorem find?_recordAIUsage (cfg : Config) (uid : String) (mdl : AIModel) (d : ℕ) (L : Ledger) :
    (Database.recordAIUsage cfg uid mdl d L).find? (fun r => r.user_id == uid && r.usage_date == d)
      = some (match L.find? (fun r => r.user_id == uid && r.usage_date == d) with
        | some existing =>
          { existing with
            calls := existing.calls + 1
            estimated_cost := existing.estimated_cost + Database.costOf cfg mdl }
        | none =>
          { user_id := uid, usage_date := d, calls := 1,
            estimated_cost := Database.costOf cfg mdl }) := by
  simp only [Database.recordAIUsage]
  cases hf : L.find? (fun r => r.user_id == uid && r.usage_date == d) with
  | none => simp [List.find?_append, hf, Database.costOf]
  | some ex =>
    have hpex := List.find?_some hf
    rw [find?_map_update _ _
          (fun r => by by_cases hr : r.user_id == uid && r.usage_date == d <;> simp [hr]),
        hf]
    rw [Option.map_some', if_pos hpex]
    simp [Database.costOf]

/-- Effects of one `finalize` step on the ledger and the call counters. -/
theorem finalize_effects (cfg : Config) (env : Env) (ledger : Ledger) (g o t : ℕ)
    (m : MacroEstimate) (mdl : AIModel) :
    match (Index.finalize cfg env ledger g o t m mdl).response with
    | HResponse.success resp =>
      (Index.finalize cfg env ledger g o t m mdl).recordCalls = 1 ∧
      (Index.finalize cfg env ledger g o t m mdl).ledger
        = Database.recordAIUsage cfg env.userId resp.ai_model_used env.today ledger
    | HResponse.error _ _ _ =>
      (Index.finalize cfg env ledger g o t m mdl).recordCalls = 0 ∧
      (Index.finalize cfg env ledger g o t m mdl).ledger = ledger := by
  unfold Index.finalize Index.errResult
  by_cases h : m.calories = 0 ∨ m.protein = 0 ∧ m.carbs = 0 ∧ m.fat = 0 <;> simp [h]

/-- Effects of the image-analysis mode on the ledger and the counters. -/
theorem imageAnalysis_effects (cfg : Config) (env : Env) (ledger : Ledger) :
    match (Index.imageAnalysis cfg env ledger).response with
    | HResponse.success resp =>
      (Index.imageAnalysis cfg env ledger).recordCalls = 1 ∧
      (Index.imageAnalysis cfg env ledger).ledger
        = Database.recordAIUsage cfg env.userId resp.ai_model_used env.today ledger
    | HResponse.error _ _ _ =>
      (Index.imageAnalysis cfg env ledger).recordCalls = 0 ∧
      (Index.imageAnalysis cfg env ledger).ledger = ledger := by
  unfold Index.imageAnalysis
  rcases env.geminiResult with e | m
  · by_cases h : env.hasOpenAI <;> simp [h, Index.errResult] ;
      rcases env.openaiResult with e' | m' <;> simp [Index.errResult, finalize_effects]
  · by_cases h : m.confidence = Confidence.low ∧ env.hasOpenAI <;> simp [h, finalize_effects] ;
      rcases env.openaiResult with e' | m' <;> simp [finalize_effects] ;
      by_cases h' : m'.confidence = Confidence.low <;> simp [h', finalize_effects]

/-- Effects of the text-analysis mode on the ledger and the counters. -/
theorem textAnalysis_effects (cfg : Config) (env : Env) (ledger : Ledger) :
    match (Index.textAnalysis cfg env ledger).response with
    | HResponse.success resp =>
      (Index.textAnalysis cfg env ledger).recordCalls = 1 ∧
      (Index.textAnalysis cfg env ledger).ledger
        = Database.recordAIUsage cfg env.userId resp.ai_model_used env.today ledger
    | HResponse.error _ _ _ =>
      (Index.textAnalysis cfg env ledger).recordCalls = 0 ∧
      (Index.textAnalysis cfg env ledger).ledger = ledger := by
  unfold Index.textAnalysis
  rcases env.textResult with e | m
  · simp [Index.errResult]
  · simpa using finalize_effects cfg env ledger 0 0 1 m AIModel.gemini

end AIMacroLens

namespace AIMacroLens

/-! ## Claim C1 — the not-food rule -/

/-- C1 counterexample: an accepted Gemini estimate with calories = 0 but
protein = 5 does not satisfy "calories = 0 AND protein = carbs = fat = 0",
yet the handler rejects it with `unable_to_estimate` — the code tests
`calories === 0 || (protein === 0 && carbs === 0 && fat === 0)`, not the
conjunction the claim states. -/
theorem finalize_rejects_zeroCalorie_nonzeroMacro :
    ({ baseEnv with geminiResult := Except.ok estZeroCalNonzeroMacro } : Env).geminiResult
        = Except.ok estZeroCalNonzeroMacro ∧
    ¬ (estZeroCalNonzeroMacro.calories = 0 ∧ estZeroCalNonzeroMacro.protein = 0 ∧
       estZeroCalNonzeroMacro.carbs = 0 ∧ estZeroCalNonzeroMacro.fat = 0) ∧
    (Index.handle CONFIG { baseEnv with geminiResult := Except.ok estZeroCalNonzeroMacro } []).response
        = HResponse.error 400 "unable_to_estimate" (some "Image does not appear to contain food") := by
  refine ⟨rfl, ?_, rfl⟩
  intro h
  exact absurd h.2.1 (by norm_num [estZeroCalNonzeroMacro])

/-- C1 (amended): for every accepted provider estimate, the handler rejects
it with `UnableToEstimate` exactly when calories = 0 OR all three macro
fields are 0 (disjunction, not the claimed conjunction); an estimate passing
that test is returned to the caller annotated with the producing model. -/
theorem finalize_notFood_rule (cfg : Config) (env : Env) (ledger : Ledger) (g o t : ℕ)
    (m : MacroEstimate) (mdl : AIModel) :
    ((Index.finalize cfg env ledger g o t m mdl).response
        = HResponse.error 400 "unable_to_estimate" (some "Image does not appear to contain food")
      ↔ m.calories = 0 ∨ (m.protein = 0 ∧ m.carbs = 0 ∧ m.fat = 0)) ∧
    (Index.finalize cfg env ledger g o t m mdl).response = Index.finalizedResponse m mdl := by
  unfold Index.finalize Index.errResult Index.finalizedResponse
  constructor
  · split <;> simp_all
  · split <;> simp

/-! ## Claim C2 — exactly-once usage accounting -/

/-- C2: the ledger is written exactly once per successfully finalized
request — on a success response `recordAIUsage` has run once, for the model
named in the response; on every error response (validation failure, identity
mismatch, rate or cost rejection, image unreachability, provider failure,
not-food rejection) the ledger is unchanged and `recordAIUsage` never ran,
admission control being read-only.  And one `recordAIUsage` call increments
today's `calls` by exactly 1, adds the model's per-call cost to the row's
`estimated_cost`, and creates today's row with `calls = 1` when absent. -/
theorem usage_recorded_exactly_once_per_success (cfg : Config) (env : Env) (ledger : Ledger) :
    (match (Index.handle cfg env ledger).response with
     | HResponse.success resp =>
       (Index.handle cfg env ledger).recordCalls = 1 ∧
       (Index.handle cfg env ledger).ledger
         = Database.recordAIUsage cfg env.userId resp.ai_model_used env.today ledger
     | HResponse.error _ _ _ =>
       (Index.handle cfg env ledger).recordCalls = 0 ∧
       (Index.handle cfg env ledger).ledger = ledger) ∧
    (∀ mdl,
      Database.getDailyUsageCount
          (Database.recordAIUsage cfg env.userId mdl env.today ledger) env.userId env.today
        = Database.getDailyUsageCount ledger env.userId env.today + 1) ∧
    (∀ mdl,
      match ledger.find? (fun r => r.user_id == env.userId && r.usage_date == env.today) with
      | some existing =>
        (Database.recordAIUsage cfg env.userId mdl env.today ledger).find?
            (fun r => r.user_id == env.userId && r.usage_date == env.today)
          = some { existing with
                   calls := existing.calls + 1
                   estimated_cost := existing.estimated_cost + Database.costOf cfg mdl }
      | none =>
        Database.recordAIUsage cfg env.userId mdl env.today ledger
          = ledger ++ [{ user_id := env.userId, usage_date := env.today, calls := 1
                         estimated_cost := Database.costOf cfg mdl }]) := by
  refine ⟨?_, ?_, ?_⟩
  · unfold Index.handle
    rcases env.validation with e | req
    · simp [Index.errResult]
    · simp only []
      by_cases h₁ : req.user_id ≠ env.userId
      · simp [h₁, Index.errResult]
      · rw [if_neg h₁]
        by_cases h₂ : cfg.RATE_LIMIT_DAILY ≤ Database.getDailyUsageCount ledger env.userId env.today
        · simp [h₂, Index.errResult]
        · rw [if_neg h₂]
          by_cases h₃ : cfg.COST_LIMIT_MONTHLY_INR
              ≤ Database.getMonthlyEstimatedCost ledger env.firstOfMonth
          · simp [h₃, Index.errResult]
          · rw [if_neg h₃]
            by_cases h₄ : optTruthy req.image_url = true
            · rw [if_pos h₄]
              cases hv : Validators.validateImageUrl env.imageProbe with
              | error e => simp [Index.errResult]
              | ok u => exact imageAnalysis_effects cfg env ledger
            · rw [if_neg h₄]
              by_cases h₅ : optTruthy req.description = true
              · rw [if_pos h₅]
                exact textAnalysis_effects cfg env ledger
              · rw [if_neg h₅]
                simp [Index.errResult]
  · intro mdl
    unfold Database.getDailyUsageCount
    rw [find?_recordAIUsage]
    cases hf : ledger.find? (fun r => r.user_id == env.userId && r.usage_date == env.today) <;>
      simp [hf]
  · intro mdl
    cases hf : ledger.find? (fun r => r.user_id == env.userId && r.usage_date == env.today) with
    | none =>
      simp only [Database.recordAIUsage, hf]
      simp [Database.costOf]
    | some ex =>
      rw [find?_recordAIUsage]
      simp [hf]

end AIMacroLens

namespace AIMacroLens

/-! ## Analysis-outcome and ledger-sum helpers -/

/-- Image-mode analysis only ever yields a success or `unable_to_estimate`. -/
theorem imageAnalysis_outcome (cfg : Config) (env : Env) (ledger : Ledger) :
    isAnalysisOutcome (Index.imageAnalysis cfg env ledger).response := by
  unfold Index.imageAnalysis
  have hfin : ∀ (g o t : ℕ) (m : MacroEstimate) (mdl : AIModel),
      isAnalysisOutcome (Index.finalize cfg env ledger g o t m mdl).response := by
    intro g o t m mdl
    unfold Index.finalize Index.errResult
    by_cases h : m.calories = 0 ∨ m.protein = 0 ∧ m.carbs = 0 ∧ m.fat = 0 <;>
      simp [h, isAnalysisOutcome]
  rcases env.geminiResult with e | m
  all_goals simp only []
  · by_cases h : env.hasOpenAI = true
    · rw [if_pos h]
      rcases env.openaiResult with e' | m'
      all_goals simp only []
      · simp [Index.errResult, isAnalysisOutcome]
      · exact hfin 1 1 0 m' AIModel.openai
    · rw [if_neg h]
      simp [Index.errResult, isAnalysisOutcome]
  · by_cases h : m.confidence = Confidence.low ∧ env.hasOpenAI = true
    · rw [if_pos h]
      rcases env.openaiResult with e' | m'
      all_goals simp only []
      · exact hfin 1 1 0 m AIModel.gemini
      · by_cases h' : m'.confidence ≠ Confidence.low
        · rw [if_pos h']
          exact hfin 1 1 0 m' AIModel.openai
        · rw [if_neg h']
          exact hfin 1 1 0 m AIModel.gemini
    · rw [if_neg h]
      exact hfin 1 0 0 m AIModel.gemini

/-- Text-mode analysis only ever yields a success or `unable_to_estimate`. -/
theorem textAnalysis_outcome (cfg : Config) (env : Env) (ledger : Ledger) :
    isAnalysisOutcome (Index.textAnalysis cfg env ledger).response := by
  unfold Index.textAnalysis
  rcases env.textResult with e | m
  · simp [Index.errResult, isAnalysisOutcome]
  · unfold Index.finalize Index.errResult
    by_cases h : m.calories = 0 ∨ m.protein = 0 ∧ m.carbs = 0 ∧ m.fat = 0 <;>
      simp [h, isAnalysisOutcome]

/-- `getMonthlyEstimatedCost` is the sum of `estimated_cost` over the rows of
all users dated on or after the first day of the month. -/
theorem getMonthlyEstimatedCost_eq_sum (L : Ledger) (first : ℕ) :
    Database.getMonthlyEstimatedCost L first
      = ((L.filter (fun r => first ≤ r.usage_date)).map (fun r => r.estimated_cost)).sum := by
  unfold Database.getMonthlyEstimatedCost
  rw [List.sum_eq_foldl]

/-- The response of a `finalize` step is `finalizedResponse`. -/
theorem finalize_response (cfg : Config) (env : Env) (ledger : Ledger) (g o t : ℕ)
    (m : MacroEstimate) (mdl : AIModel) :
    (Index.finalize cfg env ledger g o t m mdl).response = Index.finalizedResponse m mdl := by
  unfold Index.finalize Index.finalizedResponse Index.errResult
  split <;> simp

/-- A `finalize` step reports the call counters it was handed. -/
theorem finalize_counters (cfg : Config) (env : Env) (ledger : Ledger) (g o t : ℕ)
    (m : MacroEstimate) (mdl : AIModel) :
    (Index.finalize cfg env ledger g o t m mdl).geminiCalls = g ∧
    (Index.finalize cfg env ledger g o t m mdl).openaiCalls = o ∧
    (Index.finalize cfg env ledger g o t m mdl).textCalls = t := by
  unfold Index.finalize Index.errResult
  split <;> simp

end AIMacroLens

namespace AIMacroLens

/-! ## Claim C4 — daily quota boundary -/

/-- C4: for a validated request from the right user, admission rejects with
`RateLimitExceeded` (429) exactly when today's call count is ≥ the configured
daily limit; on rejection no provider is invoked and the ledger is untouched.
With daily limit 5 on a freshly reset ledger, the 5th request of the day
(count 4) is admitted and the 6th (count 5) is rejected. -/
theorem daily_quota_boundary (cfg : Config) (env : Env) (ledger : Ledger)
    (req : AnalyzeMealRequest) (hval : env.validation = Except.ok req)
    (hid : req.user_id = env.userId) :
    (((Index.handle cfg env ledger).response
        = HResponse.error 429 "Daily rate limit exceeded. Max 5 AI analyses per day." none)
      ↔ cfg.RATE_LIMIT_DAILY ≤ Database.getDailyUsageCount ledger env.userId env.today) ∧
    (cfg.RATE_LIMIT_DAILY ≤ Database.getDailyUsageCount ledger env.userId env.today →
      (Index.handle cfg env ledger).geminiCalls = 0 ∧
      (Index.handle cfg env ledger).openaiCalls = 0 ∧
      (Index.handle cfg env ledger).textCalls = 0 ∧
      (Index.handle cfg env ledger).recordCalls = 0 ∧
      (Index.handle cfg env ledger).ledger = ledger) ∧
    (Database.getDailyUsageCount (iterLedger cfg5 baseEnv 4) "user-1" 20 = 4 ∧
     (Index.handle cfg5 baseEnv (iterLedger cfg5 baseEnv 4)).response
        = HResponse.success
            { calories := 450, protein := 37/2, carbs := 65, fat := 12
              confidence := Confidence.high, meal_description := none
              source := "ai", ai_model_used := AIModel.gemini } ∧
     Database.getDailyUsageCount (iterLedger cfg5 baseEnv 5) "user-1" 20 = 5 ∧
     (Index.handle cfg5 baseEnv (iterLedger cfg5 baseEnv 5)).response
        = HResponse.error 429 "Daily rate limit exceeded. Max 5 AI analyses per day." none) := by
  refine ⟨?_, ?_, ?_⟩
  · unfold Index.handle
    rw [hval]
    simp only []
    rw [if_neg (by simp [hid])]
    by_cases h₂ : cfg.RATE_LIMIT_DAILY ≤ Database.getDailyUsageCount ledger env.userId env.today
    · rw [if_pos h₂]
      simp [Index.errResult, h₂]
    · rw [if_neg h₂]
      constructor
      · intro hresp
        exfalso
        by_cases h₃ : cfg.COST_LIMIT_MONTHLY_INR
            ≤ Database.getMonthlyEstimatedCost ledger env.firstOfMonth
        · rw [if_pos h₃] at hresp
          simp [Index.errResult] at hresp
        · rw [if_neg h₃] at hresp
          by_cases h₄ : optTruthy req.image_url = true
          · rw [if_pos h₄] at hresp
            cases hv : Validators.validateImageUrl env.imageProbe with
            | error e =>
              rw [hv] at hresp
              simp [Index.errResult] at hresp
            | ok u =>
              rw [hv] at hresp
              have hshape := imageAnalysis_outcome cfg env ledger
              rw [hresp] at hshape
              simp [isAnalysisOutcome] at hshape
          · rw [if_neg h₄] at hresp
            by_cases h₅ : optTruthy req.description = true
            · rw [if_pos h₅] at hresp
              have hshape := textAnalysis_outcome cfg env ledger
              rw [hresp] at hshape
              simp [isAnalysisOutcome] at hshape
            · rw [if_neg h₅] at hresp
              simp [Index.errResult] at hresp
      · intro h
        exact absurd h h₂
  · intro h₂
    unfold Index.handle
    rw [hval]
    simp only []
    rw [if_neg (by simp [hid]), if_pos h₂]
    simp [Index.errResult]
  · refine ⟨by decide, rfl, by decide, rfl⟩

/-- C4 witness: the rate-limit equivalence applied at a concrete admitted
request. -/
theorem daily_quota_boundary_witness :
    ((Index.handle CONFIG baseEnv []).response
        = HResponse.error 429 "Daily rate limit exceeded. Max 5 AI analyses per day." none)
      ↔ CONFIG.RATE_LIMIT_DAILY ≤ Database.getDailyUsageCount [] "user-1" 20 :=
  (daily_quota_boundary CONFIG baseEnv [] imgRequest rfl rfl).1

/-! ## Claim C3 — global cost circuit breaker -/

/-- C3: the monthly cost check sums `estimated_cost` across *all* users'
rows dated on or after the first day of the month, and admission rejects
with `CostLimitExceeded` (429) exactly when that sum is ≥ the ceiling, before
any provider call; an inference that pushes the cost past the ceiling
(79.99 + 0.03 = 80.02 against ceiling 80) still completes and is billed, and
the next request is the first to be rejected — even though the spend belongs
to a different user. -/
theorem cost_guard_global (cfg : Config) (env : Env) (ledger : Ledger)
    (req : AnalyzeMealRequest) (hval : env.validation = Except.ok req)
    (hid : req.user_id = env.userId)
    (hrate : ¬ cfg.RATE_LIMIT_DAILY ≤ Database.getDailyUsageCount ledger env.userId env.today) :
    (Database.getMonthlyEstimatedCost ledger env.firstOfMonth
      = ((ledger.filter (fun r => env.firstOfMonth ≤ r.usage_date)).map
          (fun r => r.estimated_cost)).sum) ∧
    (((Index.handle cfg env ledger).response
        = HResponse.error 429 "Monthly cost limit reached" none)
      ↔ cfg.COST_LIMIT_MONTHLY_INR ≤ Database.getMonthlyEstimatedCost ledger env.firstOfMonth) ∧
    (cfg.COST_LIMIT_MONTHLY_INR ≤ Database.getMonthlyEstimatedCost ledger env.firstOfMonth →
      (Index.handle cfg env ledger).geminiCalls = 0 ∧
      (Index.handle cfg env ledger).openaiCalls = 0 ∧
      (Index.handle cfg env ledger).textCalls = 0 ∧
      (Index.handle cfg env ledger).recordCalls = 0 ∧
      (Index.handle cfg env ledger).ledger = ledger) ∧
    (Database.getMonthlyEstimatedCost ledgerNearCeiling 11 = 7999/100 ∧
     ¬ cfg80.COST_LIMIT_MONTHLY_INR ≤ Database.getMonthlyEstimatedCost ledgerNearCeiling 11 ∧
     (Index.handle cfg80 baseEnv ledgerNearCeiling).response
        = HResponse.success
            { calories := 450, protein := 37/2, carbs := 65, fat := 12
              confidence := Confidence.high, meal_description := none
              source := "ai", ai_model_used := AIModel.gemini } ∧
     Database.getMonthlyEstimatedCost (Index.handle cfg80 baseEnv ledgerNearCeiling).ledger 11
        = 8002/100 ∧
     (Index.handle cfg80 baseEnv (Index.handle cfg80 baseEnv ledgerNearCeiling).ledger).response
        = HResponse.error 429 "Monthly cost limit reached" none) := by
  refine ⟨getMonthlyEstimatedCost_eq_sum ledger env.firstOfMonth, ?_, ?_, ?_⟩
  · unfold Index.handle
    rw [hval]
    simp only []
    rw [if_neg (by simp [hid]), if_neg hrate]
    by_cases h₃ : cfg.COST_LIMIT_MONTHLY_INR
        ≤ Database.getMonthlyEstimatedCost ledger env.firstOfMonth
    · rw [if_pos h₃]
      simp [Index.errResult, h₃]
    · rw [if_neg h₃]
      constructor
      · intro hresp
        exfalso
        by_cases h₄ : optTruthy req.image_url = true
        · rw [if_pos h₄] at hresp
          cases hv : Validators.validateImageUrl env.imageProbe with
          | error e =>
            rw [hv] at hresp
            simp [Index.errResult] at hresp
          | ok u =>
            rw [hv] at hresp
            have hshape := imageAnalysis_outcome cfg env ledger
            rw [hresp] at hshape
            simp [isAnalysisOutcome] at hshape
        · rw [if_neg h₄] at hresp
          by_cases h₅ : optTruthy req.description = true
          · rw [if_pos h₅] at hresp
            have hshape := textAnalysis_outcome cfg env ledger
            rw [hresp] at hshape
            simp [isAnalysisOutcome] at hshape
          · rw [if_neg h₅] at hresp
            simp [Index.errResult] at hresp
      · intro h
        exact absurd h h₃
  · intro h₃
    unfold Index.handle
    rw [hval]
    simp only []
    rw [if_neg (by simp [hid]), if_neg hrate, if_pos h₃]
    simp [Index.errResult]
  · refine ⟨by decide, by decide, rfl, by decide, rfl⟩

/-- C3 witness: the cost-guard equivalence at a concrete over-ceiling
ledger. -/
theorem cost_guard_global_witness :
    ((Index.handle cfg80 baseEnv ledgerOverCeiling).response
        = HResponse.error 429 "Monthly cost limit reached" none)
      ↔ cfg80.COST_LIMIT_MONTHLY_INR ≤ Database.getMonthlyEstimatedCost ledgerOverCeiling 11 :=
  (cost_guard_global cfg80 baseEnv ledgerOverCeiling imgRequest rfl rfl (by decide)).2.1

end AIMacroLens

namespace AIMacroLens

/-! ## Claims C5 and C6 — confidence-gated fallback -/

/-- C5 (amended): for every admitted image-mode request whose Gemini call
succeeds with confidence ≠ low, the OpenAI adapter is never invoked —
unconditionally, whatever the estimate's values — and the Gemini estimate is
finalized: returned annotated with `ai_model_used = gemini` unless it trips
the not-food rule. -/
theorem confidence_gated_no_fallback (cfg : Config) (env : Env) (ledger : Ledger)
    (req : AnalyzeMealRequest) (g : MacroEstimate)
    (hval : env.validation = Except.ok req)
    (hid : req.user_id = env.userId)
    (hrate : ¬ cfg.RATE_LIMIT_DAILY ≤ Database.getDailyUsageCount ledger env.userId env.today)
    (hcost : ¬ cfg.COST_LIMIT_MONTHLY_INR
        ≤ Database.getMonthlyEstimatedCost ledger env.firstOfMonth)
    (himg : optTruthy req.image_url = true)
    (hprobe : Validators.validateImageUrl env.imageProbe = Except.ok ())
    (hg : env.geminiResult = Except.ok g)
    (hconf : g.confidence ≠ Confidence.low) :
    (Index.handle cfg env ledger).openaiCalls = 0 ∧
    (Index.handle cfg env ledger).response = Index.finalizedResponse g AIModel.gemini := by
  unfold Index.handle
  rw [hval]
  simp only []
  rw [if_neg (by simp [hid]), if_neg hrate, if_neg hcost, if_pos himg, hprobe]
  simp only []
  unfold Index.imageAnalysis
  rw [hg]
  simp only []
  rw [if_neg (fun h => hconf h.1)]
  exact ⟨(finalize_counters cfg env ledger 1 0 0 g AIModel.gemini).2.1, finalize_response ..⟩

/-- C5 witness: the baseline request returns the Gemini estimate with no
OpenAI call. -/
theorem confidence_gated_no_fallback_witness :
    (Index.handle CONFIG baseEnv []).openaiCalls = 0 ∧
    (Index.handle CONFIG baseEnv []).response
      = Index.finalizedResponse
          { calories := 450, protein := 37/2, carbs := 65, fat := 12
            confidence := Confidence.high, meal_description := none }
          AIModel.gemini :=
  confidence_gated_no_fallback CONFIG baseEnv [] imgRequest
    { calories := 450, protein := 37/2, carbs := 65, fat := 12, confidence := Confidence.high }
    rfl rfl (by decide) (by decide) rfl rfl rfl (by decide)

/-- C5 counterexample: Gemini succeeds with confidence = medium (≠ low) but
an all-zero estimate; the secondary is indeed never invoked, yet the
primary's estimate is *not* returned — the request fails with
`unable_to_estimate` at the finalize not-food check, falsifying the claim's
"the primary's estimate is returned" conjunct. -/
theorem confidence_gate_notFood_counterexample :
    (Index.handle CONFIG envGateZero []).openaiCalls = 0 ∧
    (Index.handle CONFIG envGateZero []).response
      = HResponse.error 400 "unable_to_estimate" (some "Image does not appear to contain food") ∧
    (Index.handle CONFIG envGateZero []).response
      ≠ HResponse.success
          { calories := 0, protein := 0, carbs := 0, fat := 0
            confidence := Confidence.medium, meal_description := none
            source := "ai", ai_model_used := AIModel.gemini } := by
  refine ⟨rfl, rfl, fun h => ?_⟩
  exact HResponse.noConfusion ((rfl :
    (Index.handle CONFIG envGateZero []).response
      = HResponse.error 400 "unable_to_estimate"
          (some "Image does not appear to contain food")).symm.trans h)

/-- C6 (amended): for every admitted image-mode request whose Gemini call
succeeds with confidence = low, OpenAI is invoked exactly when it is
configured; its result supersedes Gemini's only when its confidence ≠ low,
and otherwise (secondary low, failed, or unconfigured) the low-confidence
Gemini estimate is kept — the kept estimate is then finalized, i.e. returned
unless it trips the not-food rule. -/
theorem low_confidence_fallback_upgrade_only (cfg : Config) (env : Env) (ledger : Ledger)
    (req : AnalyzeMealRequest) (g : MacroEstimate)
    (hval : env.validation = Except.ok req)
    (hid : req.user_id = env.userId)
    (hrate : ¬ cfg.RATE_LIMIT_DAILY ≤ Database.getDailyUsageCount ledger env.userId env.today)
    (hcost : ¬ cfg.COST_LIMIT_MONTHLY_INR
        ≤ Database.getMonthlyEstimatedCost ledger env.firstOfMonth)
    (himg : optTruthy req.image_url = true)
    (hprobe : Validators.validateImageUrl env.imageProbe = Except.ok ())
    (hg : env.geminiResult = Except.ok g)
    (hlow : g.confidence = Confidence.low) :
    (Index.handle cfg env ledger).openaiCalls = (if env.hasOpenAI then 1 else 0) ∧
    (match env.hasOpenAI, env.openaiResult with
     | true, Except.ok o =>
       (Index.handle cfg env ledger).response
         = (if o.confidence ≠ Confidence.low then Index.finalizedResponse o AIModel.openai
            else Index.finalizedResponse g AIModel.gemini)
     | true, Except.error _ =>
       (Index.handle cfg env ledger).response = Index.finalizedResponse g AIModel.gemini
     | false, _ =>
       (Index.handle cfg env ledger).response = Index.finalizedResponse g AIModel.gemini) := by
  unfold Index.handle
  rw [hval]
  simp only []
  rw [if_neg (by simp [hid]), if_neg hrate, if_neg hcost, if_pos himg, hprobe]
  simp only []
  unfold Index.imageAnalysis
  rw [hg]
  simp only []
  by_cases hO : env.hasOpenAI = true
  · rw [if_pos ⟨hlow, hO⟩]
    cases ho : env.openaiResult with
    | ok o =>
      simp only [hO, ho]
      by_cases hc : o.confidence ≠ Confidence.low
      · rw [if_pos hc, if_pos hc]
        exact ⟨(finalize_counters cfg env ledger 1 1 0 o AIModel.openai).2.1, finalize_response ..⟩
      · rw [if_neg hc, if_neg hc]
        exact ⟨(finalize_counters cfg env ledger 1 1 0 g AIModel.gemini).2.1, finalize_response ..⟩
    | error e =>
      simp only [hO, ho]
      exact ⟨(finalize_counters cfg env ledger 1 1 0 g AIModel.gemini).2.1, finalize_response ..⟩
  · rw [if_neg (fun h => absurd h.2 hO)]
    have hOf : env.hasOpenAI = false := by
      cases hb : env.hasOpenAI
      · rfl
      · exact absurd hb hO
    simp only [hOf]
    exact ⟨(finalize_counters cfg env ledger 1 0 0 g AIModel.gemini).2.1, finalize_response ..⟩

/-- C6 witness: a low-confidence Gemini result upgraded by a high-confidence
OpenAI result. -/
theorem low_confidence_fallback_witness :
    (Index.handle CONFIG envLowUpgrade []).openaiCalls = 1 ∧
    (Index.handle CONFIG envLowUpgrade []).response
      = Index.finalizedResponse baseEstimate AIModel.openai := by
  have h := low_confidence_fallback_upgrade_only CONFIG envLowUpgrade [] imgRequest estLowConf
    rfl rfl (by decide) (by decide) rfl rfl rfl rfl
  exact ⟨h.1, h.2⟩

/-- C6 counterexample: Gemini's low-confidence estimate is all-zero and the
configured OpenAI fallback fails; the primary result is kept, but it is
*not* returned — the finalize not-food rule discards it, falsifying the
claim's "the low-confidence primary result is never discarded". -/
theorem low_confidence_fallback_counterexample :
    (Index.handle CONFIG envLowFallbackFails []).openaiCalls = 1 ∧
    (Index.handle CONFIG envLowFallbackFails []).response
      = HResponse.error 400 "unable_to_estimate" (some "Image does not appear to contain food") ∧
    (Index.handle CONFIG envLowFallbackFails []).response
      ≠ HResponse.success
          { calories := 0, protein := 0, carbs := 0, fat := 0
            confidence := Confidence.low, meal_description := none
            source := "ai", ai_model_used := AIModel.gemini } := by
  refine ⟨rfl, rfl, fun h => ?_⟩
  exact HResponse.noConfusion ((rfl :
    (Index.handle CONFIG envLowFallbackFails []).response
      = HResponse.error 400 "unable_to_estimate"
          (some "Image does not appear to contain food")).symm.trans h)

end AIMacroLens

namespace AIMacroLens

/-! ## Claim C7 — truncation-flagged parse failures -/

/-- C7 (amended): on a JSON syntax failure, only the TEXT-mode normalizer
attaches diagnostics: it fails with the first 100 characters and the
"possibly truncated" flag exactly when the cleaned candidate ends in `,` or
does not end in `\x7d`, and with the first 200 characters and a generic message
otherwise.  The image-mode normalizers attach neither prefix nor flag: the
Gemini one reports a bare generic parse failure and the OpenAI one lets the
raw `SyntaxError` propagate. -/
theorem truncation_flag_text_mode_only (text : String)
    (h₁ : Json.parse (cleanTextMode text) = none)
    (h₂ : Json.parse (cleanGemini text) = none)
    (h₃ : Json.parse (jsTrim text) = none) :
    GeminiTextHelper.parseTextAnalysisResponse text
      = Except.error
          (if jsEndsWith (cleanTextMode text) "," || !jsEndsWith (cleanTextMode text) "\x7d" then
            "AI response appears truncated. Received: "
              ++ jsSubstring (cleanTextMode text) 100 ++ "..."
          else
            "Failed to parse AI response as JSON. Response: "
              ++ jsSubstring (cleanTextMode text) 200) ∧
    GeminiHelper.parseAIResponse text = Except.error "Failed to parse AI response as JSON" ∧
    OpenAIHelper.parseAIResponse text = Except.error "SyntaxError" := by
  refine ⟨?_, ?_, ?_⟩
  · simp only [GeminiTextHelper.parseTextAnalysisResponse, h₁]
    split <;> simp [*]
  · simp only [GeminiHelper.parseAIResponse, h₂]
  · simp only [OpenAIHelper.parseAIResponse, h₃]

/-- C7 witness: a genuinely truncated payload gets the "possibly truncated"
flag in text mode, and bare failures in the image-mode normalizers. -/
theorem truncation_flag_witness :
    GeminiTextHelper.parseTextAnalysisResponse truncatedPayload
      = Except.error
          (if jsEndsWith (cleanTextMode truncatedPayload) ","
              || !jsEndsWith (cleanTextMode truncatedPayload) "\x7d" then
            "AI response appears truncated. Received: "
              ++ jsSubstring (cleanTextMode truncatedPayload) 100 ++ "..."
          else
            "Failed to parse AI response as JSON. Response: "
              ++ jsSubstring (cleanTextMode truncatedPayload) 200) ∧
    GeminiHelper.parseAIResponse truncatedPayload
      = Except.error "Failed to parse AI response as JSON" ∧
    OpenAIHelper.parseAIResponse truncatedPayload = Except.error "SyntaxError" :=
  truncation_flag_text_mode_only truncatedPayload rfl rfl rfl

/-- C7 counterexample: code-fenced JSON with a trailing comma before the
closing brace fails with the *generic* parse error in the text-mode
normalizer (the candidate still ends in `\x7d`, so the truncation flag does not
fire, against the claim), and the image-mode Gemini normalizer reports a bare
generic failure with no prefix and no flag at all (against "identically in
the image-mode and text-mode normalizers"); the flag does fire for a payload
that really ends in a comma. -/
theorem truncation_flag_counterexample :
    GeminiTextHelper.parseTextAnalysisResponse fencedTrailingComma
      = Except.error ("Failed to parse AI response as JSON. Response: \x7b\"calories\": 420, \"protein\": 12, \"carbs\": 50, \"fat\": 9, \"confidence\": \"high\",\n\x7d") ∧
    GeminiHelper.parseAIResponse fencedTrailingComma
      = Except.error "Failed to parse AI response as JSON" ∧
    GeminiTextHelper.parseTextAnalysisResponse truncatedPayload
      = Except.error "AI response appears truncated. Received: \x7b\"calories\": 420, \"protein\": 12,..." :=
  ⟨rfl, rfl, rfl⟩

end AIMacroLens

namespace AIMacroLens

/-! ## Claims C8 and C9 — rounding and output shape -/

/-- Inversion of the Gemini image normalizer on success: the estimate is the
parsed macro numbers with `Math.round` applied to calories and
`Math.round(x * 10) / 10` to each macro. -/
theorem geminiParse_ok_shape (text : String) (est : MacroEstimate)
    (h : GeminiHelper.parseAIResponse text = Except.ok est) :
    ∃ parsed cal p c f conf,
      Json.parse (cleanGemini text) = some parsed ∧
      asNum (getField parsed "calories") = some cal ∧
      asNum (getField parsed "protein") = some p ∧
      asNum (getField parsed "carbs") = some c ∧
      asNum (getField parsed "fat") = some f ∧
      asConf (getField parsed "confidence") = some conf ∧
      est = { calories := (jsRound cal : ℚ)
              protein := (jsRound (p * 10) : ℚ) / 10
              carbs := (jsRound (c * 10) : ℚ) / 10
              fat := (jsRound (f * 10) : ℚ) / 10
              confidence := conf
              meal_description := jsOrUndefined (getField parsed "meal_description") } := by
  simp only [GeminiHelper.parseAIResponse] at h
  cases hp : Json.parse (cleanGemini text) with
  | none => rw [hp] at h; exact absurd h (by simp)
  | some parsed =>
    rw [hp] at h
    simp only [] at h
    cases hcal : asNum (getField parsed "calories") with
    | none => rw [hcal] at h; exact absurd h (by simp)
    | some cal =>
      rw [hcal] at h
      cases hpr : asNum (getField parsed "protein") with
      | none => rw [hpr] at h; exact absurd h (by simp)
      | some p =>
        rw [hpr] at h
        cases hcb : asNum (getField parsed "carbs") with
        | none => rw [hcb] at h; exact absurd h (by simp)
        | some c =>
          rw [hcb] at h
          cases hft : asNum (getField parsed "fat") with
          | none => rw [hft] at h; exact absurd h (by simp)
          | some f =>
            rw [hft] at h
            cases hcf : asConf (getField parsed "confidence") with
            | none => rw [hcf] at h; exact absurd h (by simp)
            | some conf =>
              rw [hcf] at h
              simp only [Except.ok.injEq] at h
              exact ⟨parsed, cal, p, c, f, conf, rfl, hcal, hpr, hcb, hft, hcf, h.symm⟩

/-- Inversion of the text-mode normalizer on success: same rounding as the
image-mode normalizers. -/
theorem textParse_ok_shape (text : String) (est : MacroEstimate)
    (h : GeminiTextHelper.parseTextAnalysisResponse text = Except.ok est) :
    ∃ parsed cal p c f conf,
      Json.parse (cleanTextMode text) = some parsed ∧
      asNum (getField parsed "calories") = some cal ∧
      asNum (getField parsed "protein") = some p ∧
      asNum (getField parsed "carbs") = some c ∧
      asNum (getField parsed "fat") = some f ∧
      asConf (getField parsed "confidence") = some conf ∧
      est = { calories := (jsRound cal : ℚ)
              protein := (jsRound (p * 10) : ℚ) / 10
              carbs := (jsRound (c * 10) : ℚ) / 10
              fat := (jsRound (f * 10) : ℚ) / 10
              confidence := conf
              meal_description := jsOrUndefined (getField parsed "meal_description") } := by
  simp only [GeminiTextHelper.parseTextAnalysisResponse] at h
  cases hp : Json.parse (cleanTextMode text) with
  | none =>
    rw [hp] at h
    exact absurd h (by simp only []; split <;> simp)
  | some parsed =>
    rw [hp] at h
    simp only [] at h
    cases hcal : asNum (getField parsed "calories") with
    | none => rw [hcal] at h; exact absurd h (by simp)
    | some cal =>
      rw [hcal] at h
      cases hpr : asNum (getField parsed "protein") with
      | none => rw [hpr] at h; exact absurd h (by simp)
      | some p =>
        rw [hpr] at h
        cases hcb : asNum (getField parsed "carbs") with
        | none => rw [hcb] at h; exact absurd h (by simp)
        | some c =>
          rw [hcb] at h
          cases hft : asNum (getField parsed "fat") with
          | none => rw [hft] at h; exact absurd h (by simp)
          | some f =>
            rw [hft] at h
            cases hcf : asConf (getField parsed "confidence") with
            | none => rw [hcf] at h; exact absurd h (by simp)
            | some conf =>
              rw [hcf] at h
              simp only [Except.ok.injEq] at h
              exact ⟨parsed, cal, p, c, f, conf, rfl, hcal, hpr, hcb, hft, hcf, h.symm⟩

/-- Inversion of the OpenAI normalizer on success: same rounding, no
description field. -/
theorem openaiParse_ok_shape (text : String) (est : MacroEstimate)
    (h : OpenAIHelper.parseAIResponse text = Except.ok est) :
    ∃ parsed cal p c f conf,
      Json.parse (jsTrim text) = some parsed ∧
      asNum (getField parsed "calories") = some cal ∧
      asNum (getField parsed "protein") = some p ∧
      asNum (getField parsed "carbs") = some c ∧
      asNum (getField parsed "fat") = some f ∧
      asConf (getField parsed "confidence") = some conf ∧
      est = { calories := (jsRound cal : ℚ)
              protein := (jsRound (p * 10) : ℚ) / 10
              carbs := (jsRound (c * 10) : ℚ) / 10
              fat := (jsRound (f * 10) : ℚ) / 10
              confidence := conf
              meal_description := none } := by
  simp only [OpenAIHelper.parseAIResponse] at h
  cases hp : Json.parse (jsTrim text) with
  | none => rw [hp] at h; exact absurd h (by simp)
  | some parsed =>
    rw [hp] at h
    simp only [] at h
    cases hcal : asNum (getField parsed "calories") with
    | none => rw [hcal] at h; exact absurd h (by simp)
    | some cal =>
      rw [hcal] at h
      cases hpr : asNum (getField parsed "protein") with
      | none => rw [hpr] at h; exact absurd h (by simp)
      | some p =>
        rw [hpr] at h
        cases hcb : asNum (getField parsed "carbs") with
        | none => rw [hcb] at h; exact absurd h (by simp)
        | some c =>
          rw [hcb] at h
          cases hft : asNum (getField parsed "fat") with
          | none => rw [hft] at h; exact absurd h (by simp)
          | some f =>
            rw [hft] at h
            cases hcf : asConf (getField parsed "confidence") with
            | none => rw [hcf] at h; exact absurd h (by simp)
            | some conf =>
              rw [hcf] at h
              simp only [Except.ok.injEq] at h
              exact ⟨parsed, cal, p, c, f, conf, rfl, hcal, hpr, hcb, hft, hcf, h.symm⟩

end AIMacroLens

namespace AIMacroLens

/-- C8: every normalizer rounds calories to the nearest whole unit
(`Math.round`) and each macro to one decimal place
(`Math.round(x * 10) / 10`), with the same expressions in all three
normalizers; at the half-way boundary protein 18.54 normalizes to 18.5
(37/2) and 18.55 to 18.6 (93/5) — half rounds up — identically through the
Gemini image, Gemini text, and OpenAI normalizers. -/
theorem rounding_normalization :
    (GeminiHelper.parseAIResponse proteinHalfDown
      = Except.ok { calories := 100, protein := 37/2, carbs := 10, fat := 2
                    confidence := Confidence.high, meal_description := none }) ∧
    (GeminiTextHelper.parseTextAnalysisResponse proteinHalfDown
      = Except.ok { calories := 100, protein := 37/2, carbs := 10, fat := 2
                    confidence := Confidence.high, meal_description := none }) ∧
    (OpenAIHelper.parseAIResponse proteinHalfDown
      = Except.ok { calories := 100, protein := 37/2, carbs := 10, fat := 2
                    confidence := Confidence.high, meal_description := none }) ∧
    (GeminiHelper.parseAIResponse proteinHalfUp
      = Except.ok { calories := 100, protein := 93/5, carbs := 10, fat := 2
                    confidence := Confidence.high, meal_description := none }) ∧
    (GeminiTextHelper.parseTextAnalysisResponse proteinHalfUp
      = Except.ok { calories := 100, protein := 93/5, carbs := 10, fat := 2
                    confidence := Confidence.high, meal_description := none }) ∧
    (OpenAIHelper.parseAIResponse proteinHalfUp
      = Except.ok { calories := 100, protein := 93/5, carbs := 10, fat := 2
                    confidence := Confidence.high, meal_description := none }) ∧
    (∀ text est, GeminiHelper.parseAIResponse text = Except.ok est →
      ∃ parsed cal p c f conf,
        Json.parse (cleanGemini text) = some parsed ∧
        asNum (getField parsed "calories") = some cal ∧
        asNum (getField parsed "protein") = some p ∧
        asNum (getField parsed "carbs") = some c ∧
        asNum (getField parsed "fat") = some f ∧
        asConf (getField parsed "confidence") = some conf ∧
        est = { calories := (jsRound cal : ℚ)
                protein := (jsRound (p * 10) : ℚ) / 10
                carbs := (jsRound (c * 10) : ℚ) / 10
                fat := (jsRound (f * 10) : ℚ) / 10
                confidence := conf
                meal_description := jsOrUndefined (getField parsed "meal_description") }) ∧
    (∀ text est, GeminiTextHelper.parseTextAnalysisResponse text = Except.ok est →
      ∃ parsed cal p c f conf,
        Json.parse (cleanTextMode text) = some parsed ∧
        asNum (getField parsed "calories") = some cal ∧
        asNum (getField parsed "protein") = some p ∧
        asNum (getField parsed "carbs") = some c ∧
        asNum (getField parsed "fat") = some f ∧
        asConf (getField parsed "confidence") = some conf ∧
        est = { calories := (jsRound cal : ℚ)
                protein := (jsRound (p * 10) : ℚ) / 10
                carbs := (jsRound (c * 10) : ℚ) / 10
                fat := (jsRound (f * 10) : ℚ) / 10
                confidence := conf
                meal_description := jsOrUndefined (getField parsed "meal_description") }) ∧
    (∀ text est, OpenAIHelper.parseAIResponse text = Except.ok est →
      ∃ parsed cal p c f conf,
        Json.parse (jsTrim text) = some parsed ∧
        asNum (getField parsed "calories") = some cal ∧
        asNum (getField parsed "protein") = some p ∧
        asNum (getField parsed "carbs") = some c ∧
        asNum (getField parsed "fat") = some f ∧
        asConf (getField parsed "confidence") = some conf ∧
        est = { calories := (jsRound cal : ℚ)
                protein := (jsRound (p * 10) : ℚ) / 10
                carbs := (jsRound (c * 10) : ℚ) / 10
                fat := (jsRound (f * 10) : ℚ) / 10
                confidence := conf
                meal_description := none }) := by
  exact ⟨rfl, rfl, rfl, rfl, rfl, rfl,
    geminiParse_ok_shape, textParse_ok_shape, openaiParse_ok_shape⟩

/-- C8 witness: the inversion parts applied at the 18.55 boundary input for
all three normalizers. -/
theorem rounding_normalization_witness :
    (∃ parsed cal p c f conf,
      Json.parse (cleanGemini proteinHalfUp) = some parsed ∧
      asNum (getField parsed "calories") = some cal ∧
      asNum (getField parsed "protein") = some p ∧
      asNum (getField parsed "carbs") = some c ∧
      asNum (getField parsed "fat") = some f ∧
      asConf (getField parsed "confidence") = some conf ∧
      ({ calories := 100, protein := 93/5, carbs := 10, fat := 2
         confidence := Confidence.high, meal_description := none } : MacroEstimate)
        = { calories := (jsRound cal : ℚ)
            protein := (jsRound (p * 10) : ℚ) / 10
            carbs := (jsRound (c * 10) : ℚ) / 10
            fat := (jsRound (f * 10) : ℚ) / 10
            confidence := conf
            meal_description := jsOrUndefined (getField parsed "meal_description") }) ∧
    (∃ parsed cal p c f conf,
      Json.parse (cleanTextMode proteinHalfUp) = some parsed ∧
      asNum (getField parsed "calories") = some cal ∧
      asNum (getField parsed "protein") = some p ∧
      asNum (getField parsed "carbs") = some c ∧
      asNum (getField parsed "fat") = some f ∧
      asConf (getField parsed "confidence") = some conf ∧
      ({ calories := 100, protein := 93/5, carbs := 10, fat := 2
         confidence := Confidence.high, meal_description := none } : MacroEstimate)
        = { calories := (jsRound cal : ℚ)
            protein := (jsRound (p * 10) : ℚ) / 10
            carbs := (jsRound (c * 10) : ℚ) / 10
            fat := (jsRound (f * 10) : ℚ) / 10
            confidence := conf
            meal_description := jsOrUndefined (getField parsed "meal_description") }) ∧
    (∃ parsed cal p c f conf,
      Json.parse (jsTrim proteinHalfUp) = some parsed ∧
      asNum (getField parsed "calories") = some cal ∧
      asNum (getField parsed "protein") = some p ∧
      asNum (getField parsed "carbs") = some c ∧
      asNum (getField parsed "fat") = some f ∧
      asConf (getField parsed "confidence") = some conf ∧
      ({ calories := 100, protein := 93/5, carbs := 10, fat := 2
         confidence := Confidence.high, meal_description := none } : MacroEstimate)
        = { calories := (jsRound cal : ℚ)
            protein := (jsRound (p * 10) : ℚ) / 10
            carbs := (jsRound (c * 10) : ℚ) / 10
            fat := (jsRound (f * 10) : ℚ) / 10
            confidence := conf
            meal_description := none }) :=
  ⟨rounding_normalization.2.2.2.2.2.2.1 proteinHalfUp _ rfl,
   rounding_normalization.2.2.2.2.2.2.2.1 proteinHalfUp _ rfl,
   rounding_normalization.2.2.2.2.2.2.2.2 proteinHalfUp _ rfl⟩

end AIMacroLens

namespace AIMacroLens

/-- Shape facts about a normalized estimate record: integer calories,
one-decimal macros. -/
theorem estimate_shape_aux (cal p c f : ℚ) (conf : Confidence) (desc : Option Json) :
    (∃ n : ℤ, (MacroEstimate.mk (jsRound cal : ℚ) ((jsRound (p * 10) : ℚ) / 10)
        ((jsRound (c * 10) : ℚ) / 10) ((jsRound (f * 10) : ℚ) / 10) conf desc).calories
        = (n : ℚ)) ∧
    (∃ n : ℤ, (MacroEstimate.mk (jsRound cal : ℚ) ((jsRound (p * 10) : ℚ) / 10)
        ((jsRound (c * 10) : ℚ) / 10) ((jsRound (f * 10) : ℚ) / 10) conf desc).protein * 10
        = (n : ℚ)) ∧
    (∃ n : ℤ, (MacroEstimate.mk (jsRound cal : ℚ) ((jsRound (p * 10) : ℚ) / 10)
        ((jsRound (c * 10) : ℚ) / 10) ((jsRound (f * 10) : ℚ) / 10) conf desc).carbs * 10
        = (n : ℚ)) ∧
    (∃ n : ℤ, (MacroEstimate.mk (jsRound cal : ℚ) ((jsRound (p * 10) : ℚ) / 10)
        ((jsRound (c * 10) : ℚ) / 10) ((jsRound (f * 10) : ℚ) / 10) conf desc).fat * 10
        = (n : ℚ)) := by
  refine ⟨⟨jsRound cal, rfl⟩, ⟨jsRound (p * 10), ?_⟩, ⟨jsRound (c * 10), ?_⟩,
    ⟨jsRound (f * 10), ?_⟩⟩ <;>
    exact div_mul_cancel₀ _ (by norm_num)

/-- C9 (amended): every estimate a normalizer produces has integer calories,
macros with at most one decimal place (10·x is an integer), and confidence
equal to one of the three enum literals — but the fields are *not*
guaranteed non-negative, since the validation only checks
`typeof === 'number'`. -/
theorem normalizer_output_shape (text : String) (est : MacroEstimate) :
    (GeminiHelper.parseAIResponse text = Except.ok est →
      (∃ n : ℤ, est.calories = (n : ℚ)) ∧ (∃ n : ℤ, est.protein * 10 = (n : ℚ)) ∧
      (∃ n : ℤ, est.carbs * 10 = (n : ℚ)) ∧ (∃ n : ℤ, est.fat * 10 = (n : ℚ)) ∧
      (est.confidence = Confidence.low ∨ est.confidence = Confidence.medium ∨
        est.confidence = Confidence.high)) ∧
    (GeminiTextHelper.parseTextAnalysisResponse text = Except.ok est →
      (∃ n : ℤ, est.calories = (n : ℚ)) ∧ (∃ n : ℤ, est.protein * 10 = (n : ℚ)) ∧
      (∃ n : ℤ, est.carbs * 10 = (n : ℚ)) ∧ (∃ n : ℤ, est.fat * 10 = (n : ℚ)) ∧
      (est.confidence = Confidence.low ∨ est.confidence = Confidence.medium ∨
        est.confidence = Confidence.high)) ∧
    (OpenAIHelper.parseAIResponse text = Except.ok est →
      (∃ n : ℤ, est.calories = (n : ℚ)) ∧ (∃ n : ℤ, est.protein * 10 = (n : ℚ)) ∧
      (∃ n : ℤ, est.carbs * 10 = (n : ℚ)) ∧ (∃ n : ℤ, est.fat * 10 = (n : ℚ)) ∧
      (est.confidence = Confidence.low ∨ est.confidence = Confidence.medium ∨
        est.confidence = Confidence.high)) := by
  refine ⟨fun h => ?_, fun h => ?_, fun h => ?_⟩
  · obtain ⟨parsed, cal, p, c, f, conf, -, -, -, -, -, -, hest⟩ := geminiParse_ok_shape text est h
    subst hest
    have aux := estimate_shape_aux cal p c f conf
        (jsOrUndefined (getField parsed "meal_description"))
    exact ⟨aux.1, aux.2.1, aux.2.2.1, aux.2.2.2, by cases conf <;> simp⟩
  · obtain ⟨parsed, cal, p, c, f, conf, -, -, -, -, -, -, hest⟩ := textParse_ok_shape text est h
    subst hest
    have aux := estimate_shape_aux cal p c f conf
        (jsOrUndefined (getField parsed "meal_description"))
    exact ⟨aux.1, aux.2.1, aux.2.2.1, aux.2.2.2, by cases conf <;> simp⟩
  · obtain ⟨parsed, cal, p, c, f, conf, -, -, -, -, -, -, hest⟩ := openaiParse_ok_shape text est h
    subst hest
    have aux := estimate_shape_aux cal p c f conf none
    exact ⟨aux.1, aux.2.1, aux.2.2.1, aux.2.2.2, by cases conf <;> simp⟩

/-- C9 witness: the shape facts at a concrete normalized payload. -/
theorem normalizer_output_shape_witness :
    ((∃ n : ℤ, ((100 : ℚ)) = (n : ℚ)) ∧ (∃ n : ℤ, (37/2 : ℚ) * 10 = (n : ℚ)) ∧
      (∃ n : ℤ, (10 : ℚ) * 10 = (n : ℚ)) ∧ (∃ n : ℤ, (2 : ℚ) * 10 = (n : ℚ)) ∧
      (Confidence.high = Confidence.low ∨ Confidence.high = Confidence.medium ∨
        Confidence.high = Confidence.high)) :=
  (normalizer_output_shape proteinHalfDown
    { calories := 100, protein := 37/2, carbs := 10, fat := 2
      confidence := Confidence.high, meal_description := none }).1 rfl

/-- C9 counterexample: the Gemini normalizer accepts a payload with
calories = -100 and protein = -5 and produces an estimate with negative
fields — the claimed non-negativity invariant does not hold on the code. -/
theorem normalizer_negative_counterexample :
    GeminiHelper.parseAIResponse negText
      = Except.ok { calories := -100, protein := -5, carbs := 2, fat := 3
                    confidence := Confidence.low, meal_description := none } ∧
    ((-100 : ℚ) < 0 ∧ (-5 : ℚ) < 0) := ⟨rfl, by decide, by decide⟩

/-! ## Claim C10 — content-type handling of the image probe -/

/-- C10: a 2xx probe response with no `content-type` header is accepted by
`validateImageUrl`, and the "URL does not point to an image" rejection is
raised only when a `content-type` header is present and does not start with
`image/`. -/
theorem content_type_probe_rule :
    (∀ pr : ProbeResponse, pr.ok = true → pr.contentType = none →
      Validators.validateImageUrl (Except.ok pr) = Except.ok ()) ∧
    (∀ probe, Validators.validateImageUrl probe = Except.error "URL does not point to an image" →
      ∃ pr s, probe = Except.ok pr ∧ pr.contentType = some s ∧
        jsStartsWith s "image/" = false) := by
  constructor
  · intro pr hok hct
    simp [Validators.validateImageUrl, hok, hct]
  · intro probe h
    cases probe with
    | error e =>
      exfalso
      simp only [Validators.validateImageUrl] at h
      injection h with h'
      exact absurd (show (['F'] : List Char) = ['U'] from
        congrArg (fun s : String => s.data.take 1) h') (by decide)
    | ok pr =>
      simp only [Validators.validateImageUrl] at h
      by_cases hok : pr.ok
      · rw [if_neg (by simp [hok])] at h
        cases hct : pr.contentType with
        | none => rw [hct] at h; exact absurd h (by simp)
        | some ct =>
          rw [hct] at h
          simp only [] at h
          by_cases hcond : (ct ≠ "" && !jsStartsWith ct "image/") = true
          · refine ⟨pr, ct, rfl, hct, ?_⟩
            have := (Bool.and_eq_true _ _).mp hcond
            cases hs : jsStartsWith ct "image/"
            · rfl
            · rw [hs] at this
              exact absurd this.2 (by decide)
          · rw [if_neg hcond] at h
            exact absurd h (by simp)
      · rw [if_pos (by simp [Bool.not_eq_true] at hok ⊢; exact hok)] at h
        exfalso
        injection h with h'
        exact absurd (show (['I'] : List Char) = ['U'] from
          congrArg (fun s : String => s.data.take 1) h') (by decide)

/-- C10 witness: a 204 probe with no content-type is accepted; a `text/html`
content-type satisfies the inversion of the non-image rejection. -/
theorem content_type_probe_witness :
    Validators.validateImageUrl
        (Except.ok { status := 204, contentType := none }) = Except.ok () ∧
    (∃ pr s, (Except.ok { status := 200, contentType := some "text/html" }
          : Except String ProbeResponse) = Except.ok pr ∧
      pr.contentType = some s ∧ jsStartsWith s "image/" = false) :=
  ⟨content_type_probe_rule.1 { status := 204, contentType := none } rfl rfl,
   content_type_probe_rule.2 (Except.ok { status := 200, contentType := some "text/html" }) rfl⟩

end AIMacroLens
